import Mathlib

/-!
Shallow embedding of `src/file_organizer.py`.

The script walks a source tree, classifies each file by extension into a
category folder under the destination, and resolves name collisions at the
planned target path with a configured duplicate strategy (rename / skip /
replace).  The embedding below translates the functions of the source file
into pure Lean functions over an explicit filesystem state:

* the filesystem is a finite association list from path strings to file
  contents, plus the list of directories created so far;
* `os.walk` is modelled by taking the enumeration of regular files under the
  source root (pairs of containing-directory path and filename, in walk
  order) as an explicit input.  Files that the run itself moves land in
  category directories, which the exclusion check filters out, so the initial
  enumeration is a faithful snapshot;
* the MD5 content hash is modelled as the file's content itself (the only
  property the program relies on is that equal bytes give equal digests);
* environment failures (unreadable file during hashing, `os.path.getmtime`
  raising, `shutil.move` raising) are supplied by oracles in `Env`;
* `os.path.join a b` is modelled as `a ++ "/" ++ b` (the script never passes
  absolute second arguments), `str.lower` as ASCII lowering (all extensions
  in the table are ASCII), and `int(time.time())` as the run constant
  `Env.now`.

Python dicts keep insertion order; association lists with ordered update
(`setA`), ordered insert-if-absent (`ensureA`) and in-place increment
(`bumpA`) model `stats["kategorien"]` and `file_hashes` exactly — including
the detail that `file_hashes[file_hash] = target_path` stores under the key
`None` when hashing failed.
-/

namespace FileOrganizer

/-- Python `str.lower` for the ASCII strings used by the script. -/
def strLower (s : String) : String := ⟨s.data.map Char.toLower⟩

/-- `listStarts n h` is true when `n` is an initial run of `h`. -/
def listStarts : List Char → List Char → Bool
  | [], _ => true
  | _ :: _, [] => false
  | a :: n, b :: h => a == b && listStarts n h

/-- `listHas n h` is true when `n` occurs contiguously in `h`
(Python's substring test `n in h`). -/
def listHas (n : List Char) : List Char → Bool
  | [] => listStarts n []
  | c :: t => listStarts n (c :: t) || listHas n t

/-- Python `needle in hay` on strings (substring containment). -/
def strHas (hay needle : String) : Bool := listHas needle.data hay.data

/-- `os.path.join` as used by the script (POSIX, relative second argument). -/
def pjoin (a b : String) : String := a ++ "/" ++ b

/-- `os.path.splitext` on a basename: split at the last dot, unless every
character before it is also a dot (so `".bashrc"` keeps its dot in the stem). -/
def splitext (p : String) : String × String :=
  let cs := p.data
  match cs.reverse.findIdx? (fun c => c == '.') with
  | none => (p, "")
  | some j =>
    let i := cs.length - 1 - j
    if (cs.take i).any (fun c => c != '.') then
      (⟨cs.take i⟩, ⟨cs.drop i⟩)
    else (p, "")

/-- The category table `FILE_CATEGORIES`, in declaration order. -/
def FILE_CATEGORIES : List (String × List String) :=
  [("Dokumente", [".pdf", ".doc", ".docx", ".txt", ".rtf", ".odt", ".xls",
                  ".xlsx", ".ppt", ".pptx", ".csv", ".ods", ".odp"]),
   ("Bilder", [".jpg", ".jpeg", ".png", ".gif", ".bmp", ".svg", ".tiff",
               ".ico", ".webp", ".heic", ".raw", ".psd", ".ai"]),
   ("Videos", [".mp4", ".mkv", ".avi", ".mov", ".wmv", ".flv", ".webm",
               ".m4v", ".mpg", ".mpeg", ".3gp"]),
   ("Audio", [".mp3", ".wav", ".ogg", ".flac", ".aac", ".wma", ".m4a",
              ".mid", ".midi"]),
   ("Archive", [".zip", ".rar", ".7z", ".tar", ".gz", ".bz2", ".xz", ".iso"]),
   ("Code", [".py", ".java", ".cpp", ".c", ".h", ".hpp", ".js", ".html",
             ".css", ".php", ".rb", ".go", ".rs", ".swift", ".kt", ".json",
             ".xml", ".sql", ".sh", ".bat", ".ps1"]),
   ("Programme", [".exe", ".msi", ".app", ".dmg", ".deb", ".rpm"]),
   ("Andere", [])]

/-- The category names, in declaration order (`FILE_CATEGORIES.keys()`). -/
def categoryNames : List String := FILE_CATEGORIES.map Prod.fst

/-- `get_category_for_extension`: lower-case the extension, return the first
category whose list contains it, else `"Andere"`. -/
def get_category_for_extension (ext : String) : String :=
  let e := strLower ext
  match FILE_CATEGORIES.find? (fun ce => ce.2.contains e) with
  | some ce => ce.1
  | none => "Andere"

/-- Ordered association-list lookup (Python `d[k]` / `k in d`). -/
def lookupA {κ β : Type} [BEq κ] : List (κ × β) → κ → Option β
  | [], _ => none
  | (k, v) :: t, q => if k == q then some v else lookupA t q

/-- Ordered association-list assignment `d[k] = v`: replace in place, or
append when the key is new (Python dict insertion order). -/
def setA {κ β : Type} [BEq κ] : List (κ × β) → κ → β → List (κ × β)
  | [], q, v => [(q, v)]
  | (k, w) :: t, q, v => if k == q then (q, v) :: t else (k, w) :: setA t q v

/-- Remove the entry of a key (a file disappearing from its old path). -/
def eraseA {κ β : Type} [BEq κ] : List (κ × β) → κ → List (κ × β)
  | [], _ => []
  | (k, w) :: t, q => if k == q then t else (k, w) :: eraseA t q

/-- `d[k] += 1` on a counter dict whose key is present. -/
def bumpA {κ : Type} [BEq κ] : List (κ × Nat) → κ → List (κ × Nat)
  | [], _ => []
  | (k, n) :: t, q => if k == q then (k, n + 1) :: t else (k, n) :: bumpA t q

/-- `if k not in d: d[k] = 0`. -/
def ensureA {κ : Type} [BEq κ] (l : List (κ × Nat)) (q : κ) : List (κ × Nat) :=
  if (lookupA l q).isSome then l else l ++ [(q, 0)]

/-- The `stats` dictionary of `organize_files_by_type`. -/
structure Stats where
  verschoben : Nat
  uebersprungen : Nat
  fehler : Nat
  kategorien : List (String × Nat)
deriving DecidableEq

/-- The filesystem: contents of regular files by path, and the directories
created so far. -/
structure FS where
  files : List (String × String)
  dirs : List String
deriving DecidableEq

/-- The `--duplicates` choice (argparse restricts it to these three). -/
inductive Strategy
  | rename
  | skip
  | replace
deriving DecidableEq

/-- The run configuration after the CLI layer resolved the destination
default (`destination_dir = source_dir` when none was given). -/
structure Config where
  destination_dir : String
  preview : Bool
  include_date : Bool
  handle_duplicates : Strategy
deriving DecidableEq

/-- Environment oracles: which paths fail to hash (`open` raising inside
`get_file_hash`), which moves raise, what `getmtime` + `strftime` yields
(`none` models `getmtime` raising), and the run's `int(time.time())`. -/
structure Env where
  hashFails : String → Bool
  moveFails : String → Bool
  mtimeMonth : String → Option String
  now : Nat

/-- The mutable state threaded through the traversal loop: the filesystem,
`stats`, and the `file_hashes` duplicate index (keys are `Option` because the
source assigns `file_hashes[file_hash] = target_path` even when the hash
computation returned `None`). -/
structure OrgState where
  fs : FS
  stats : Stats
  hashes : List (Option String × String)
deriving DecidableEq

def addSkipped (st : Stats) : Stats := { st with uebersprungen := st.uebersprungen + 1 }

def addError (st : Stats) : Stats := { st with fehler := st.fehler + 1 }

/-- Line 113-114: `if category not in stats["kategorien"]: ... = 0`. -/
def initCategory (st : Stats) (category : String) : Stats :=
  { st with kategorien := ensureA st.kategorien category }

/-- Lines 151-152: `stats["verschoben"] += 1; stats["kategorien"][category] += 1`. -/
def addMoved (st : Stats) (category : String) : Stats :=
  { st with verschoben := st.verschoben + 1, kategorien := bumpA st.kategorien category }

/-- `get_file_hash`: `None` when reading fails, else the digest of the
contents (modelled by the contents themselves). -/
def get_file_hash (env : Env) (files : List (String × String)) (file_path : String) :
    Option String :=
  if env.hashFails file_path then none else lookupA files file_path

/-- `create_directory_if_not_exists`. -/
def FS.mkdirp (fs : FS) (d : String) : FS :=
  if fs.dirs.contains d then fs else { fs with dirs := fs.dirs ++ [d] }

/-- `shutil.move`: the destination path receives the source contents
(overwriting any file already there) and the source path disappears. -/
def FS.move (fs : FS) (src dst content : String) : FS :=
  { fs with files := setA (eraseA fs.files src) dst content }

/-- Line 105: `any(category in root for category in FILE_CATEGORIES.keys())`
— substring containment of a category name in the directory path. -/
def excludedRoot (root : String) : Bool := categoryNames.any (fun c => strHas root c)

/-- Lines 116-121: the target directory — `destination/category`, extended by
the `YYYY-MM` bucket when `--date` is set; `none` when `getmtime` raises. -/
def plannedDir (cfg : Config) (env : Env) (source_path category : String) : Option String :=
  let base := pjoin cfg.destination_dir category
  if cfg.include_date then (env.mtimeMonth source_path).map (fun d => pjoin base d)
  else some base

/-- Line 123-124: the date sub-directory is created just-in-time, non-preview
runs only. -/
def fsAfterDateDir (cfg : Config) (fs : FS) (target_dir : String) : FS :=
  if cfg.include_date && !cfg.preview then fs.mkdirp target_dir else fs

/-- Lines 128-143: collision handling.  Returns `none` for the `skip`
branch's `continue`, otherwise the updated `file_hashes` and the final target
path.  Note the branch structure of the source: the strategy is consulted
only when the hash succeeded *and* was already recorded in `file_hashes`;
a first-time collision, a hash failure, and the `replace` strategy all fall
through to a plain move onto `target_path`, after recording the (possibly
absent) hash. -/
def resolveTarget (cfg : Config) (env : Env) (files : List (String × String))
    (hashes : List (Option String × String))
    (source_path target_dir target_path fname : String) :
    Option (List (Option String × String) × String) :=
  if (lookupA files target_path).isSome then
    match get_file_hash env files source_path with
    | some h =>
      if (lookupA hashes (some h)).isSome then
        match cfg.handle_duplicates with
        | Strategy.skip => none
        | Strategy.rename =>
          let stem_ext := splitext fname
          let new_filename := stem_ext.1 ++ "_" ++ toString env.now ++ stem_ext.2
          let tp := pjoin target_dir new_filename
          some (setA hashes (some h) tp, tp)
        | Strategy.replace => some (setA hashes (some h) target_path, target_path)
      else some (setA hashes (some h) target_path, target_path)
    | none => some (setA hashes none target_path, target_path)
  else some (hashes, target_path)

/-- Lines 102-156: processing of one enumerated file `root/fname`.  The
`try` block's partial mutations survive an exception, so error branches keep
the category initialisation and the `file_hashes` update that already
happened. -/
def processFile (cfg : Config) (env : Env) (s : OrgState) (root fname : String) : OrgState :=
  if excludedRoot root then
    { s with stats := addSkipped s.stats }
  else
    let source_path := pjoin root fname
    let category := get_category_for_extension (splitext fname).2
    let stats1 := initCategory s.stats category
    match plannedDir cfg env source_path category with
    | none => { s with stats := addError stats1 }
    | some target_dir =>
      let fs2 := fsAfterDateDir cfg s.fs target_dir
      let target_path := pjoin target_dir fname
      match resolveTarget cfg env fs2.files s.hashes source_path target_dir target_path fname with
      | none => { fs := fs2, stats := addSkipped stats1, hashes := s.hashes }
      | some (hs, tp) =>
        if cfg.preview then
          { fs := fs2, stats := addMoved stats1 category, hashes := hs }
        else if env.moveFails source_path then
          { fs := fs2, stats := addError stats1, hashes := hs }
        else
          match lookupA fs2.files source_path with
          | none => { fs := fs2, stats := addError stats1, hashes := hs }
          | some content =>
            { fs := fs2.move source_path tp content,
              stats := addMoved stats1 category, hashes := hs }

/-- Lines 97-99: the pre-run creation of all category directories. -/
def preCreateDirs (cfg : Config) (fs : FS) : FS :=
  categoryNames.foldl (fun acc c => acc.mkdirp (pjoin cfg.destination_dir c)) fs

/-- `organize_files_by_type`: pre-create category directories (non-preview),
then fold the per-file step over the walk enumeration, starting from zeroed
stats and an empty duplicate index. -/
def organize_files_by_type (cfg : Config) (env : Env) (fs0 : FS)
    (walk : List (String × String)) : OrgState :=
  let fsInit := if cfg.preview then fs0 else preCreateDirs cfg fs0
  walk.foldl (fun s rf => processFile cfg env s rf.1 rf.2) ⟨fsInit, ⟨0, 0, 0, []⟩, []⟩

/-- Split a path into its `/`-separated segments (used only to state that a
directory name merely *contains* a category name without any segment being
equal to one). -/
def splitSegAux (cur : List Char) : List Char → List String
  | [] => [⟨cur.reverse⟩]
  | c :: t => if c == '/' then (⟨cur.reverse⟩ : String) :: splitSegAux [] t
              else splitSegAux (c :: cur) t

def pathSegs (p : String) : List String := splitSegAux [] p.data

/-- Sum of the per-category counters. -/
def sumCounts (l : List (String × Nat)) : Nat := (l.map Prod.snd).sum

/-- An environment in which nothing fails. -/
def envOk : Env := ⟨fun _ => false, fun _ => false, fun _ => some "2024-01", 111⟩

/-- An environment in which hashing the file `s/x.txt` fails. -/
def envHF : Env :=
  { hashFails := fun p => p == pjoin "s" "x.txt", moveFails := fun _ => false,
    mtimeMonth := fun _ => some "2024-01", now := 111 }

/-- An environment in which moving the file `s/x.txt` fails. -/
def envMF : Env :=
  { hashFails := fun _ => false, moveFails := fun p => p == pjoin "s" "x.txt",
    mtimeMonth := fun _ => some "2024-01", now := 111 }

def cfgRen : Config := ⟨"dst", false, false, Strategy.rename⟩

def cfgSkip : Config := ⟨"dst", false, false, Strategy.skip⟩

/-- `cfgSkip` with the preview flag set — the two differ only in `preview`. -/
def cfgSkipPrev : Config := ⟨"dst", true, false, Strategy.skip⟩

/-- Two identical files with the same name in different subfolders. -/
def fs0pair : FS := ⟨[(pjoin "s/a" "x.txt", "C"), (pjoin "s/b" "x.txt", "C")], []⟩

def walkPair : List (String × String) := [("s/a", "x.txt"), ("s/b", "x.txt")]

/-- Three identical files with the same name in different subfolders. -/
def fs0triple : FS :=
  ⟨[(pjoin "s/a" "x.txt", "C"), (pjoin "s/b" "x.txt", "C"), (pjoin "s/c" "x.txt", "C")], []⟩

def walkTriple : List (String × String) :=
  [("s/a", "x.txt"), ("s/b", "x.txt"), ("s/c", "x.txt")]

/-- A source file whose planned destination is already occupied. -/
def fs0clash : FS := ⟨[(pjoin "dst/Dokumente" "x.txt", "OLD"), (pjoin "s" "x.txt", "NEW")], []⟩

def walkOne : List (String × String) := [("s", "x.txt")]

def st0 : OrgState := ⟨⟨[], []⟩, ⟨0, 0, 0, []⟩, []⟩

/-- State for the first-collision witness: the planned target
`dst/Andere/x.q` is occupied, the duplicate index is empty. -/
def stC8 : OrgState := ⟨⟨[(pjoin "dst/Andere" "x.q", "OLD"), (pjoin "r" "x.q", "NEW")], []⟩, ⟨0, 0, 0, []⟩, []⟩

/-- State for the hash-failure witness. -/
def stC2 : OrgState := ⟨fs0clash, ⟨0, 0, 0, []⟩, []⟩

/-- State for the move-failure witness. -/
def stC6 : OrgState := ⟨⟨[(pjoin "s" "x.txt", "C")], []⟩, ⟨0, 0, 0, []⟩, []⟩

/-! ### Helper lemmas -/

theorem listStarts_append (n b : List Char) : listStarts n (n ++ b) = true := by
  induction n with
  | nil => rfl
  | cons a t ih => simp [listStarts, ih]

theorem listHas_here (n b : List Char) : listHas n (n ++ b) = true := by
  cases n with
  | nil =>
    cases b with
    | nil => rfl
    | cons c t => simp [listHas, listStarts]
  | cons a t => simp [listHas, listStarts, listStarts_append]

theorem listHas_append_left (a n h : List Char) (hh : listHas n h = true) :
    listHas n (a ++ h) = true := by
  induction a with
  | nil => simpa using hh
  | cons c t ih => simp [listHas, ih]

theorem strHas_parts (p1 cat p2 : String) : strHas (p1 ++ cat ++ p2) cat = true := by
  show listHas cat.data (p1 ++ cat ++ p2).data = true
  have hdata : (p1 ++ cat ++ p2).data = p1.data ++ (cat.data ++ p2.data) := by
    simp [String.data_append]
  rw [hdata]
  exact listHas_append_left _ _ _ (listHas_here _ _)

theorem excludedRoot_of_mem (root cat : String) (hcat : cat ∈ categoryNames)
    (hsub : strHas root cat = true) : excludedRoot root = true := by
  simp only [excludedRoot, List.any_eq_true]
  exact ⟨cat, hcat, hsub⟩

@[simp] theorem mkdirp_files (fs : FS) (d : String) : (fs.mkdirp d).files = fs.files := by
  unfold FS.mkdirp
  split <;> rfl

@[simp] theorem FS.move_files (fs : FS) (src dst c : String) :
    (FS.move fs src dst c).files = setA (eraseA fs.files src) dst c := rfl

@[simp] theorem FS.move_dirs (fs : FS) (src dst c : String) :
    (FS.move fs src dst c).dirs = fs.dirs := rfl

@[simp] theorem fsAfterDateDir_files (cfg : Config) (fs : FS) (d : String) :
    (fsAfterDateDir cfg fs d).files = fs.files := by
  unfold fsAfterDateDir
  split <;> simp

theorem foldl_mkdirp_files (d : String) (l : List String) :
    ∀ fs : FS, (l.foldl (fun acc c => acc.mkdirp (pjoin d c)) fs).files = fs.files := by
  induction l with
  | nil => intro fs; rfl
  | cons a t ih => intro fs; rw [List.foldl_cons, ih, mkdirp_files]

@[simp] theorem preCreateDirs_files (cfg : Config) (fs : FS) :
    (preCreateDirs cfg fs).files = fs.files :=
  foldl_mkdirp_files cfg.destination_dir categoryNames fs

theorem sumCounts_ensureA (l : List (String × Nat)) (k : String) :
    sumCounts (ensureA l k) = sumCounts l := by
  unfold ensureA
  split
  · rfl
  · simp [sumCounts]

theorem lookupA_append_self (l : List (String × Nat)) (k : String) :
    (lookupA (l ++ [(k, 0)]) k).isSome = true := by
  induction l with
  | nil => simp [lookupA]
  | cons a t ih =>
    obtain ⟨k1, v⟩ := a
    simp only [List.cons_append, lookupA]
    split
    · rfl
    · exact ih

theorem lookupA_ensureA (l : List (String × Nat)) (k : String) :
    (lookupA (ensureA l k) k).isSome = true := by
  unfold ensureA
  split
  · assumption
  · exact lookupA_append_self l k

theorem sumCounts_bumpA (l : List (String × Nat)) (k : String)
    (hk : (lookupA l k).isSome = true) :
    sumCounts (bumpA l k) = sumCounts l + 1 := by
  induction l with
  | nil => simp [lookupA] at hk
  | cons a t ih =>
    obtain ⟨k1, v⟩ := a
    simp only [lookupA] at hk
    simp only [bumpA]
    split
    · next h => simp [sumCounts]; omega
    · next h =>
      rw [if_neg h] at hk
      simp only [sumCounts, List.map_cons, List.sum_cons] at *
      rw [ih hk]
      omega

theorem processFile_sum (cfg : Config) (env : Env) (s : OrgState) (root fname : String)
    (h : sumCounts s.stats.kategorien = s.stats.verschoben) :
    sumCounts (processFile cfg env s root fname).stats.kategorien =
      (processFile cfg env s root fname).stats.verschoben := by
  have hens := sumCounts_ensureA s.stats.kategorien
      (get_category_for_extension (splitext fname).2)
  have hbump := sumCounts_bumpA
      (ensureA s.stats.kategorien (get_category_for_extension (splitext fname).2))
      (get_category_for_extension (splitext fname).2)
      (lookupA_ensureA s.stats.kategorien (get_category_for_extension (splitext fname).2))
  simp only [processFile]
  repeat' split
  all_goals simp [addSkipped, addError, addMoved, initCategory, hens, hbump, h]

theorem foldl_processFile_sum (cfg : Config) (env : Env) (l : List (String × String)) :
    ∀ s : OrgState, sumCounts s.stats.kategorien = s.stats.verschoben →
      sumCounts ((l.foldl (fun a rf => processFile cfg env a rf.1 rf.2) s)).stats.kategorien =
        ((l.foldl (fun a rf => processFile cfg env a rf.1 rf.2) s)).stats.verschoben := by
  induction l with
  | nil => intro s h; exact h
  | cons a t ih =>
    intro s h
    rw [List.foldl_cons]
    exact ih _ (processFile_sum cfg env s a.1 a.2 h)

theorem processFile_fs_preview (cfg : Config) (env : Env) (s : OrgState) (root fname : String)
    (hp : cfg.preview = true) :
    (processFile cfg env s root fname).fs = s.fs := by
  have hfs2 : ∀ d, fsAfterDateDir cfg s.fs d = s.fs := by
    intro d
    unfold fsAfterDateDir
    simp [hp]
  simp only [processFile]
  repeat' split
  all_goals simp_all [hfs2]

theorem foldl_fs_preview (cfg : Config) (env : Env) (hp : cfg.preview = true)
    (l : List (String × String)) :
    ∀ s : OrgState, ((l.foldl (fun a rf => processFile cfg env a rf.1 rf.2) s)).fs = s.fs := by
  induction l with
  | nil => intro s; rfl
  | cons a t ih =>
    intro s
    rw [List.foldl_cons, ih, processFile_fs_preview cfg env s a.1 a.2 hp]

theorem FS.components_eq {a b : FS} (hf : a.files = b.files) (hd : a.dirs = b.dirs) : a = b := by
  cases a
  cases b
  cases hf
  cases hd
  rfl

theorem find?_first {α : Type} (p : α → Bool) (pre : List α) (x : α) (post : List α)
    (hpre : ∀ a ∈ pre, p a = false) (hx : p x = true) :
    (pre ++ x :: post).find? p = some x := by
  induction pre with
  | nil => simp [List.find?, hx]
  | cons a t ih =>
    have ha := hpre a (List.mem_cons_self a t)
    simp only [List.cons_append, List.find?, ha]
    exact ih (fun b hb => hpre b (List.mem_cons_of_mem a hb))

/-- Evaluation of the per-file step when the planned target is free. -/
theorem processFile_noCollision (cfg : Config) (env : Env) (s : OrgState)
    (root fname category td content : String)
    (hex : excludedRoot root = false)
    (hcat : category = get_category_for_extension (splitext fname).2)
    (hpd : plannedDir cfg env (pjoin root fname) category = some td)
    (htgt : lookupA s.fs.files (pjoin td fname) = none)
    (hpre : cfg.preview = false)
    (hmv : env.moveFails (pjoin root fname) = false)
    (hsrc : lookupA s.fs.files (pjoin root fname) = some content) :
    processFile cfg env s root fname =
      { fs := FS.move (fsAfterDateDir cfg s.fs td) (pjoin root fname) (pjoin td fname) content,
        stats := addMoved (initCategory s.stats category) category,
        hashes := s.hashes } := by
  subst hcat
  simp only [processFile, resolveTarget]
  simp [hex, hpd, htgt, hpre, hmv, hsrc]

/-- Evaluation of the per-file step on a first-time collision: the target is
occupied but the source's hash is not yet in the duplicate index, so every
strategy falls through to a plain overwriting move. -/
theorem processFile_firstCollision (cfg : Config) (env : Env) (s : OrgState)
    (root fname category td h old content : String)
    (hex : excludedRoot root = false)
    (hcat : category = get_category_for_extension (splitext fname).2)
    (hpd : plannedDir cfg env (pjoin root fname) category = some td)
    (htgt : lookupA s.fs.files (pjoin td fname) = some old)
    (hh : get_file_hash env s.fs.files (pjoin root fname) = some h)
    (hnew : lookupA s.hashes (some h) = none)
    (hpre : cfg.preview = false)
    (hmv : env.moveFails (pjoin root fname) = false)
    (hsrc : lookupA s.fs.files (pjoin root fname) = some content) :
    processFile cfg env s root fname =
      { fs := FS.move (fsAfterDateDir cfg s.fs td) (pjoin root fname) (pjoin td fname) content,
        stats := addMoved (initCategory s.stats category) category,
        hashes := setA s.hashes (some h) (pjoin td fname) } := by
  subst hcat
  simp only [processFile, resolveTarget]
  simp [hex, hpd, fsAfterDateDir_files, htgt, hh, hnew, hpre, hmv, hsrc]

/-- Evaluation of a whole run on two files with identical content `c` and the
same filename `f` in different subfolders `r1`, `r2`, with an initially
unoccupied destination: the first file is moved without recording its hash,
so the second file's collision finds an empty duplicate index, bypasses every
strategy branch, and overwrites the first file.  The final state has exactly
one file, at the planned path `tp`, both moves counted. -/
theorem organize_pair (cfg : Config) (env : Env) (ds : List String)
    (r1 r2 f c p1 p2 category tp : String)
    (hpre : cfg.preview = false) (hdate : cfg.include_date = false)
    (hp1 : p1 = pjoin r1 f) (hp2 : p2 = pjoin r2 f)
    (hcat : category = get_category_for_extension (splitext f).2)
    (htp : tp = pjoin (pjoin cfg.destination_dir category) f)
    (hex1 : excludedRoot r1 = false) (hex2 : excludedRoot r2 = false)
    (h12 : (p1 == p2) = false) (ht1 : (p1 == tp) = false) (ht2 : (p2 == tp) = false)
    (hhf : env.hashFails p2 = false)
    (hm1 : env.moveFails p1 = false) (hm2 : env.moveFails p2 = false) :
    organize_files_by_type cfg env ⟨[(p1, c), (p2, c)], ds⟩ [(r1, f), (r2, f)] =
      { fs := { files := [(tp, c)], dirs := (preCreateDirs cfg ⟨[(p1, c), (p2, c)], ds⟩).dirs },
        stats := ⟨2, 0, 0, [(category, 2)]⟩,
        hashes := [(some c, tp)] } := by
  have hfsd : ∀ (x : FS) (d : String), fsAfterDateDir cfg x d = x := by
    intro x d
    simp [fsAfterDateDir, hdate]
  have hpd : ∀ sp, plannedDir cfg env sp category =
      some (pjoin cfg.destination_dir category) := by
    intro sp
    simp [plannedDir, hdate]
  set fs0 : FS := ⟨[(p1, c), (p2, c)], ds⟩ with hfs0
  set s0 : OrgState := ⟨preCreateDirs cfg fs0, ⟨0, 0, 0, []⟩, []⟩ with hs0
  have horg : organize_files_by_type cfg env fs0 [(r1, f), (r2, f)] =
      processFile cfg env (processFile cfg env s0 r1 f) r2 f := by
    simp [organize_files_by_type, hpre]
  have s0files : s0.fs.files = [(p1, c), (p2, c)] := by
    show (preCreateDirs cfg fs0).files = _
    rw [preCreateDirs_files]
  have e1 : processFile cfg env s0 r1 f =
      { fs := FS.move s0.fs (pjoin r1 f) tp c,
        stats := addMoved (initCategory s0.stats category) category,
        hashes := s0.hashes } := by
    rw [htp, ← hfsd s0.fs (pjoin cfg.destination_dir category)]
    apply processFile_noCollision cfg env s0 r1 f category
      (pjoin cfg.destination_dir category) c hex1 hcat (hpd _)
    · rw [← htp, s0files]
      simp [lookupA, ht1, ht2]
    · exact hpre
    · rw [← hp1]
      exact hm1
    · rw [← hp1, s0files]
      simp [lookupA]
  set s1 : OrgState :=
    { fs := FS.move s0.fs (pjoin r1 f) tp c,
      stats := addMoved (initCategory s0.stats category) category,
      hashes := s0.hashes } with hs1
  have s1files : s1.fs.files = [(p2, c), (tp, c)] := by
    show (FS.move s0.fs (pjoin r1 f) tp c).files = _
    simp only [FS.move]
    rw [s0files, ← hp1]
    simp [eraseA, setA, ht2]
  have s1stats : s1.stats = ⟨1, 0, 0, [(category, 1)]⟩ := by
    show addMoved (initCategory (⟨0, 0, 0, []⟩ : Stats) category) category = _
    simp [addMoved, initCategory, ensureA, bumpA, lookupA]
  have s1hashes : s1.hashes = [] := rfl
  have e2 : processFile cfg env s1 r2 f =
      { fs := FS.move s1.fs (pjoin r2 f) tp c,
        stats := addMoved (initCategory s1.stats category) category,
        hashes := setA s1.hashes (some c) tp } := by
    rw [htp, ← hfsd s1.fs (pjoin cfg.destination_dir category)]
    apply processFile_firstCollision cfg env s1 r2 f category
      (pjoin cfg.destination_dir category) c c c hex2 hcat (hpd _)
    · rw [← htp, s1files]
      simp [lookupA, ht2]
    · rw [← hp2, s1files]
      simp [get_file_hash, hhf, lookupA]
    · rw [s1hashes]
      rfl
    · exact hpre
    · rw [← hp2]
      exact hm2
    · rw [← hp2, s1files]
      simp [lookupA]
  rw [horg, e1, e2]
  have hfinal : (FS.move s1.fs (pjoin r2 f) tp c).files = [(tp, c)] := by
    rw [FS.move_files, s1files, ← hp2]
    simp [eraseA, setA]
  have hs1dirs : s1.fs.dirs = (preCreateDirs cfg fs0).dirs := by
    show (FS.move s0.fs (pjoin r1 f) tp c).dirs = _
    rw [FS.move_dirs]
  have hdirs : (FS.move s1.fs (pjoin r2 f) tp c).dirs = (preCreateDirs cfg fs0).dirs := by
    rw [FS.move_dirs, hs1dirs]
  have hhashes : setA s1.hashes (some c) tp = [(some c, tp)] := by
    rw [s1hashes]
    rfl
  have hstats : addMoved (initCategory s1.stats category) category =
      ⟨2, 0, 0, [(category, 2)]⟩ := by
    rw [s1stats]
    simp [addMoved, initCategory, ensureA, bumpA, lookupA]
  have hfs : FS.move s1.fs (pjoin r2 f) tp c =
      { files := [(tp, c)], dirs := (preCreateDirs cfg fs0).dirs } :=
    FS.components_eq hfinal hdirs
  rw [hhashes, hstats, hfs]

/-! ### Claims -/

/-- Claim C4: `get_category_for_extension` lower-cases its input and returns
the first category, in the declared order of `FILE_CATEGORIES`, whose
extension list contains the lower-cased input; when no category matches
(in particular for the empty extension, since the catch-all `"Andere"` has an
empty list) it returns `"Andere"`; and `classify(".PDF") = classify(".pdf")`.
It is a pure total Lean function, so it has no error cases by construction. -/
theorem claim_C4 (ext : String) :
    get_category_for_extension ".PDF" = get_category_for_extension ".pdf" ∧
    (∀ pre name es post,
      FILE_CATEGORIES = pre ++ (name, es) :: post →
      es.contains (strLower ext) = true →
      (∀ ce ∈ pre, ce.2.contains (strLower ext) = false) →
      get_category_for_extension ext = name) ∧
    ((∀ ce ∈ FILE_CATEGORIES, ce.2.contains (strLower ext) = false) →
      get_category_for_extension ext = "Andere") := by
  refine ⟨by decide, ?_, ?_⟩
  · intro pre name es post htab hmem hpre
    simp only [get_category_for_extension]
    rw [htab, find?_first (fun ce => ce.2.contains (strLower ext)) pre (name, es) post hpre hmem]
  · intro hall
    simp only [get_category_for_extension]
    have hnone : FILE_CATEGORIES.find? (fun ce => ce.2.contains (strLower ext)) = none := by
      rw [List.find?_eq_none]
      intro x hx
      simpa using hall x hx
    rw [hnone]

/-- Witness for C4 at concrete inputs: an extension in no category's list is
classified as the catch-all `"Andere"`. -/
theorem claim_C4_witness : get_category_for_extension ".zzz" = "Andere" :=
  (claim_C4 ".zzz").2.2 (by decide)

/-- Claim C7: a file whose containing directory path has a whole segment
equal to a declared category name (the segment decomposition is expressed by
the `p1`/`p2` boundary conditions) is not classified, planned, or moved: the
per-file step only increments the skipped counter and leaves the filesystem,
the duplicate index, and the other counters unchanged. -/
theorem claim_C7 (cfg : Config) (env : Env) (s : OrgState) (root fname cat p1 p2 : String)
    (hcat : cat ∈ categoryNames)
    (hseg1 : p1 = "" ∨ ∃ q, p1 = q ++ "/")
    (hseg2 : p2 = "" ∨ ∃ q, p2 = "/" ++ q)
    (hroot : root = p1 ++ cat ++ p2) :
    processFile cfg env s root fname = { s with stats := addSkipped s.stats } := by
  have hsub : strHas root cat = true := by
    rw [hroot]
    exact strHas_parts p1 cat p2
  have hex : excludedRoot root = true := excludedRoot_of_mem root cat hcat hsub
  unfold processFile
  rw [if_pos hex]

/-- Witness for C7: a file under `dst/Bilder` (segment `Bilder`) is skipped. -/
theorem claim_C7_witness :
    processFile cfgRen envOk st0 "dst/Bilder" "y.png" = { st0 with stats := addSkipped st0.stats } :=
  claim_C7 cfgRen envOk st0 "dst/Bilder" "y.png" "Bilder" "dst/" "" (by decide)
    (Or.inr ⟨"dst", rfl⟩) (Or.inl rfl) rfl

/-- Claim C9: the already-organized exclusion fires on substring containment
of a category name anywhere in the directory path — the hypothesis is only
`strHas root cat`, no segment structure is required; the witness below shows
it firing on `"MyCodeStuff"`, none of whose segments equals a category name. -/
theorem claim_C9 (cfg : Config) (env : Env) (s : OrgState) (root fname cat : String)
    (hcat : cat ∈ categoryNames) (hsub : strHas root cat = true) :
    processFile cfg env s root fname = { s with stats := addSkipped s.stats } := by
  have hex : excludedRoot root = true := excludedRoot_of_mem root cat hcat hsub
  unfold processFile
  rw [if_pos hex]

/-- Witness for C9: the directory `"MyCodeStuff"` has no segment equal to any
category name, yet the file inside it is skipped because `"Code"` occurs as a
substring. -/
theorem claim_C9_witness :
    (pathSegs "MyCodeStuff").all (fun seg => !(categoryNames.contains seg)) = true ∧
    processFile cfgRen envOk st0 "MyCodeStuff" "notes.txt" =
      { st0 with stats := addSkipped st0.stats } :=
  ⟨by decide, claim_C9 cfgRen envOk st0 "MyCodeStuff" "notes.txt" "Code" (by decide) (by decide)⟩

/-- Counterexample to claim C1 as stated: two files with identical content
`"C"` and the same name `x.txt` in different subfolders, strategy `rename`,
non-preview.  After the run only ONE file exists at the destination — the
planned path, no timestamp-renamed file was created — although both files
were counted as moved: the second move overwrote the first, so one file was
silently lost, contradicting the claim that both survive under distinct
names. -/
theorem claim_C1_cex :
    (organize_files_by_type cfgRen envOk fs0pair walkPair).fs.files =
      [("dst/Dokumente/x.txt", "C")] ∧
    lookupA (organize_files_by_type cfgRen envOk fs0pair walkPair).fs.files
      "dst/Dokumente/x_111.txt" = none ∧
    (organize_files_by_type cfgRen envOk fs0pair walkPair).stats.verschoben = 2 := by
  decide

/-- Claim C1 (amended): with strategy `rename`, for every such pair of
identical same-named files (destination initially unoccupied, no failures),
the second file is moved directly onto the first file's destination path,
overwriting it: the final state has exactly one file, at the planned path,
no rename happened, and both files are counted as moved — because the first
move records no hash, so the second collision finds an empty duplicate index
and bypasses the strategy. -/
theorem claim_C1_amended (cfg : Config) (env : Env) (ds : List String)
    (r1 r2 f c p1 p2 category tp : String)
    (hstrat : cfg.handle_duplicates = Strategy.rename)
    (hpre : cfg.preview = false) (hdate : cfg.include_date = false)
    (hp1 : p1 = pjoin r1 f) (hp2 : p2 = pjoin r2 f)
    (hcat : category = get_category_for_extension (splitext f).2)
    (htp : tp = pjoin (pjoin cfg.destination_dir category) f)
    (hex1 : excludedRoot r1 = false) (hex2 : excludedRoot r2 = false)
    (h12 : (p1 == p2) = false) (ht1 : (p1 == tp) = false) (ht2 : (p2 == tp) = false)
    (hhf : env.hashFails p2 = false)
    (hm1 : env.moveFails p1 = false) (hm2 : env.moveFails p2 = false) :
    organize_files_by_type cfg env ⟨[(p1, c), (p2, c)], ds⟩ [(r1, f), (r2, f)] =
      { fs := { files := [(tp, c)], dirs := (preCreateDirs cfg ⟨[(p1, c), (p2, c)], ds⟩).dirs },
        stats := ⟨2, 0, 0, [(category, 2)]⟩,
        hashes := [(some c, tp)] } :=
  organize_pair cfg env ds r1 r2 f c p1 p2 category tp hpre hdate hp1 hp2 hcat htp
    hex1 hex2 h12 ht1 ht2 hhf hm1 hm2

/-- Witness for C1 (amended) at the concrete pair. -/
theorem claim_C1_amended_witness :
    organize_files_by_type cfgRen envOk ⟨[("s/a/x.txt", "C"), ("s/b/x.txt", "C")], []⟩
        [("s/a", "x.txt"), ("s/b", "x.txt")] =
      { fs := { files := [("dst/Dokumente/x.txt", "C")],
                dirs := (preCreateDirs cfgRen
                  ⟨[("s/a/x.txt", "C"), ("s/b/x.txt", "C")], []⟩).dirs },
        stats := ⟨2, 0, 0, [("Dokumente", 2)]⟩,
        hashes := [(some "C", "dst/Dokumente/x.txt")] } :=
  claim_C1_amended cfgRen envOk [] "s/a" "s/b" "x.txt" "C" "s/a/x.txt" "s/b/x.txt"
    "Dokumente" "dst/Dokumente/x.txt" rfl rfl rfl (by decide) (by decide) (by decide)
    (by decide) (by decide) (by decide) (by decide) (by decide) (by decide) rfl rfl rfl

/-- Counterexample to claim C3 as stated: same pair of identical same-named
files under strategy `skip`.  Exactly one copy does end up at the destination
— but by overwriting, and the other file is counted as MOVED, not skipped:
the skipped counter stays 0, contradicting the claim. -/
theorem claim_C3_cex :
    (organize_files_by_type cfgSkip envOk fs0pair walkPair).fs.files =
      [("dst/Dokumente/x.txt", "C")] ∧
    (organize_files_by_type cfgSkip envOk fs0pair walkPair).stats.uebersprungen = 0 ∧
    (organize_files_by_type cfgSkip envOk fs0pair walkPair).stats.verschoben = 2 := by
  decide

/-- Claim C3 (amended): with strategy `skip`, for every such pair of
identical same-named files (destination initially unoccupied, no failures),
exactly one copy remains in the destination category folder — because the
second file overwrote the first — and the other file is counted as moved,
not skipped: the skipped counter stays 0 and the moved counter reaches 2.
The skip branch never fires because the first move recorded no hash. -/
theorem claim_C3_amended (cfg : Config) (env : Env) (ds : List String)
    (r1 r2 f c p1 p2 category tp : String)
    (hstrat : cfg.handle_duplicates = Strategy.skip)
    (hpre : cfg.preview = false) (hdate : cfg.include_date = false)
    (hp1 : p1 = pjoin r1 f) (hp2 : p2 = pjoin r2 f)
    (hcat : category = get_category_for_extension (splitext f).2)
    (htp : tp = pjoin (pjoin cfg.destination_dir category) f)
    (hex1 : excludedRoot r1 = false) (hex2 : excludedRoot r2 = false)
    (h12 : (p1 == p2) = false) (ht1 : (p1 == tp) = false) (ht2 : (p2 == tp) = false)
    (hhf : env.hashFails p2 = false)
    (hm1 : env.moveFails p1 = false) (hm2 : env.moveFails p2 = false) :
    organize_files_by_type cfg env ⟨[(p1, c), (p2, c)], ds⟩ [(r1, f), (r2, f)] =
      { fs := { files := [(tp, c)], dirs := (preCreateDirs cfg ⟨[(p1, c), (p2, c)], ds⟩).dirs },
        stats := ⟨2, 0, 0, [(category, 2)]⟩,
        hashes := [(some c, tp)] } :=
  organize_pair cfg env ds r1 r2 f c p1 p2 category tp hpre hdate hp1 hp2 hcat htp
    hex1 hex2 h12 ht1 ht2 hhf hm1 hm2

/-- Witness for C3 (amended) at the concrete pair. -/
theorem claim_C3_amended_witness :
    organize_files_by_type cfgSkip envOk ⟨[("s/a/x.txt", "C"), ("s/b/x.txt", "C")], []⟩
        [("s/a", "x.txt"), ("s/b", "x.txt")] =
      { fs := { files := [("dst/Dokumente/x.txt", "C")],
                dirs := (preCreateDirs cfgSkip
                  ⟨[("s/a/x.txt", "C"), ("s/b/x.txt", "C")], []⟩).dirs },
        stats := ⟨2, 0, 0, [("Dokumente", 2)]⟩,
        hashes := [(some "C", "dst/Dokumente/x.txt")] } :=
  claim_C3_amended cfgSkip envOk [] "s/a" "s/b" "x.txt" "C" "s/a/x.txt" "s/b/x.txt"
    "Dokumente" "dst/Dokumente/x.txt" rfl rfl rfl (by decide) (by decide) (by decide)
    (by decide) (by decide) (by decide) (by decide) (by decide) (by decide) rfl rfl rfl

/-- Counterexample to claim C2 as stated: the planned target
`dst/Dokumente/x.txt` exists (contents `"OLD"`), hashing of the source
`s/x.txt` fails, and the configured strategy is `rename` — yet the file IS
moved onto the existing destination path (its contents become `"NEW"`), and
no timestamp-renamed file exists: rename semantics were not applied and the
existing destination file was overwritten. -/
theorem claim_C2_cex :
    envHF.hashFails (pjoin "s" "x.txt") = true ∧
    cfgRen.handle_duplicates = Strategy.rename ∧
    (organize_files_by_type cfgRen envHF fs0clash walkOne).fs.files =
      [("dst/Dokumente/x.txt", "NEW")] ∧
    lookupA (organize_files_by_type cfgRen envHF fs0clash walkOne).fs.files
      "dst/Dokumente/x_111.txt" = none := by
  decide

/-- Counterexample to claim C6 as stated: hashing of `s/x.txt` fails during
collision handling, but the error counter stays 0 — the hash failure is
swallowed inside `get_file_hash` (logged, `None` returned) and the file is
then moved (counted as moved), so a hash failure does NOT increment the
error counter as the claim asserts. -/
theorem claim_C6_cex :
    get_file_hash envHF fs0clash.files (pjoin "s" "x.txt") = none ∧
    (organize_files_by_type cfgSkip envHF fs0clash walkOne).stats.fehler = 0 ∧
    (organize_files_by_type cfgSkip envHF fs0clash walkOne).stats.verschoben = 1 := by
  decide

/-- Counterexample to claim C5 as stated: on three identical same-named
files, a preview run and a non-preview run (identical configuration
otherwise) return different stats — non-preview moves create the target
path, so the third file hits the `skip` branch (moved 2, skipped 1) while
preview never sees a collision (moved 3, skipped 0). -/
theorem claim_C5_cex :
    (organize_files_by_type cfgSkipPrev envOk fs0triple walkTriple).stats ≠
      (organize_files_by_type cfgSkip envOk fs0triple walkTriple).stats := by
  decide

/-- Claim C5 (amended): a preview run performs no filesystem mutation at all
— the returned filesystem (files AND directories) is exactly the input one;
the stats-equality half of the original claim is refuted by the
counterexample. -/
theorem claim_C5_amended (cfg : Config) (env : Env) (fs0 : FS)
    (walk : List (String × String)) (hp : cfg.preview = true) :
    (organize_files_by_type cfg env fs0 walk).fs = fs0 := by
  simp only [organize_files_by_type, hp, if_true]
  exact foldl_fs_preview cfg env hp walk ⟨fs0, ⟨0, 0, 0, []⟩, []⟩

/-- Witness for C5 (amended): the concrete preview run leaves the concrete
tree untouched. -/
theorem claim_C5_amended_witness :
    (organize_files_by_type cfgSkipPrev envOk fs0triple walkTriple).fs = fs0triple :=
  claim_C5_amended cfgSkipPrev envOk fs0triple walkTriple rfl

/-- Claim C8: a first-time collision — the planned target path is occupied
but the source's content hash is not yet in the run's duplicate index — hits
no skip/rename/replace branch: in non-preview mode the file is moved directly
onto the existing target path (whose old contents `old` are overwritten by
`content`), the move is counted, and the hash is recorded.  The configuration
`cfg` is arbitrary, so this holds under every configured duplicate strategy:
the right-hand side does not mention `cfg.handle_duplicates`. -/
theorem claim_C8 (cfg : Config) (env : Env) (s : OrgState)
    (root fname category td h old content : String)
    (hex : excludedRoot root = false)
    (hcat : category = get_category_for_extension (splitext fname).2)
    (hpd : plannedDir cfg env (pjoin root fname) category = some td)
    (htgt : lookupA s.fs.files (pjoin td fname) = some old)
    (hh : get_file_hash env s.fs.files (pjoin root fname) = some h)
    (hnew : lookupA s.hashes (some h) = none)
    (hpre : cfg.preview = false)
    (hmv : env.moveFails (pjoin root fname) = false)
    (hsrc : lookupA s.fs.files (pjoin root fname) = some content) :
    processFile cfg env s root fname =
      { fs := FS.move (fsAfterDateDir cfg s.fs td) (pjoin root fname) (pjoin td fname) content,
        stats := addMoved (initCategory s.stats category) category,
        hashes := setA s.hashes (some h) (pjoin td fname) } := by
  subst hcat
  simp only [processFile, resolveTarget]
  simp [hex, hpd, fsAfterDateDir_files, htgt, hh, hnew, hpre, hmv, hsrc]

/-- Witness for C8 under the `skip` strategy: the occupied target
`dst/Andere/x.q` (contents `"OLD"`) is overwritten by `r/x.q` (contents
`"NEW"`) because the duplicate index is still empty. -/
theorem claim_C8_witness :
    processFile cfgSkip envOk stC8 "r" "x.q" =
      { fs := FS.move (fsAfterDateDir cfgSkip stC8.fs "dst/Andere")
                (pjoin "r" "x.q") (pjoin "dst/Andere" "x.q") "NEW",
        stats := addMoved (initCategory stC8.stats "Andere") "Andere",
        hashes := setA stC8.hashes (some "NEW") (pjoin "dst/Andere" "x.q") } :=
  claim_C8 cfgSkip envOk stC8 "r" "x.q" "Andere" "dst/Andere" "NEW" "OLD" "NEW"
    (by decide) (by decide) (by decide) (by decide) (by decide) (by decide) rfl rfl (by decide)

/-- Claim C2 (amended): when the planned target path is occupied and hashing
the source fails, no strategy branch is applied at all — in particular the
claimed fallback to `rename` semantics does not happen.  The file is moved
directly onto the existing destination path, overwriting it, and the absent
hash is recorded in the duplicate index under the `none` key. -/
theorem claim_C2_amended (cfg : Config) (env : Env) (s : OrgState)
    (root fname category td old content : String)
    (hex : excludedRoot root = false)
    (hcat : category = get_category_for_extension (splitext fname).2)
    (hpd : plannedDir cfg env (pjoin root fname) category = some td)
    (htgt : lookupA s.fs.files (pjoin td fname) = some old)
    (hh : get_file_hash env s.fs.files (pjoin root fname) = none)
    (hpre : cfg.preview = false)
    (hmv : env.moveFails (pjoin root fname) = false)
    (hsrc : lookupA s.fs.files (pjoin root fname) = some content) :
    processFile cfg env s root fname =
      { fs := FS.move (fsAfterDateDir cfg s.fs td) (pjoin root fname) (pjoin td fname) content,
        stats := addMoved (initCategory s.stats category) category,
        hashes := setA s.hashes none (pjoin td fname) } := by
  subst hcat
  simp only [processFile, resolveTarget]
  simp [hex, hpd, fsAfterDateDir_files, htgt, hh, hpre, hmv, hsrc]

/-- Witness for C2 (amended), under the configured `rename` strategy:
hashing of `s/x.txt` fails, and the file overwrites `dst/Dokumente/x.txt`. -/
theorem claim_C2_amended_witness :
    processFile cfgRen envHF stC2 "s" "x.txt" =
      { fs := FS.move (fsAfterDateDir cfgRen stC2.fs "dst/Dokumente")
                (pjoin "s" "x.txt") (pjoin "dst/Dokumente" "x.txt") "NEW",
        stats := addMoved (initCategory stC2.stats "Dokumente") "Dokumente",
        hashes := setA stC2.hashes none (pjoin "dst/Dokumente" "x.txt") } :=
  claim_C2_amended cfgRen envHF stC2 "s" "x.txt" "Dokumente" "dst/Dokumente" "OLD" "NEW"
    (by decide) (by decide) (by decide) (by decide) (by decide) rfl rfl (by decide)

/-- Claim C6 (amended): an exception raised inside the per-file block — here
a `shutil.move` failure — is caught at the file-processing boundary: it
increments the error counter, leaves the rest of the state as the preceding
partial mutations left it, and the traversal goes on: a run over `w1 ++ w2`
is the run over `w2` started from the state (errors included) after `w1`.
A hash failure, in contrast, is caught inside `get_file_hash` and does not
increment the error counter (see the counterexample). -/
theorem claim_C6_amended (cfg : Config) (env : Env) (s : OrgState)
    (root fname category td tp : String) (hs2 : List (Option String × String))
    (hex : excludedRoot root = false)
    (hcat : category = get_category_for_extension (splitext fname).2)
    (hpd : plannedDir cfg env (pjoin root fname) category = some td)
    (hres : resolveTarget cfg env s.fs.files s.hashes (pjoin root fname) td
        (pjoin td fname) fname = some (hs2, tp))
    (hpre : cfg.preview = false)
    (hmv : env.moveFails (pjoin root fname) = true) :
    processFile cfg env s root fname =
      { fs := fsAfterDateDir cfg s.fs td,
        stats := addError (initCategory s.stats category),
        hashes := hs2 } ∧
    ∀ (fs0 : FS) (w1 w2 : List (String × String)),
      organize_files_by_type cfg env fs0 (w1 ++ w2) =
        w2.foldl (fun a rf => processFile cfg env a rf.1 rf.2)
          (organize_files_by_type cfg env fs0 w1) := by
  constructor
  · subst hcat
    simp only [processFile]
    simp [hex, hpd, fsAfterDateDir_files, hres, hpre, hmv]
  · intro fs0 w1 w2
    simp only [organize_files_by_type]
    rw [List.foldl_append]

/-- Witness for C6 (amended): moving `s/x.txt` fails; the error counter is
incremented and nothing else happens to the filesystem. -/
theorem claim_C6_amended_witness :
    processFile cfgRen envMF stC6 "s" "x.txt" =
      { fs := fsAfterDateDir cfgRen stC6.fs "dst/Dokumente",
        stats := addError (initCategory stC6.stats "Dokumente"),
        hashes := [] } :=
  (claim_C6_amended cfgRen envMF stC6 "s" "x.txt" "Dokumente" "dst/Dokumente"
    (pjoin "dst/Dokumente" "x.txt") []
    (by decide) (by decide) (by decide) (by decide) rfl (by decide)).1

/-- Claim C10: at every point of a run (after any prefix of the walk) the
moved counter equals the sum of the per-category counters: the two are
incremented together exactly when a file completes processing, a category is
initialised to zero when first seen, and skipped or errored files increment
neither. -/
theorem claim_C10 (cfg : Config) (env : Env) (fs0 : FS) (walk : List (String × String)) (n : Nat) :
    sumCounts (organize_files_by_type cfg env fs0 (walk.take n)).stats.kategorien =
      (organize_files_by_type cfg env fs0 (walk.take n)).stats.verschoben := by
  unfold organize_files_by_type
  exact foldl_processFile_sum cfg env (walk.take n) _ rfl

end FileOrganizer
